import Mathlib

/-!
Verification of the request/response transaction engine and reply parsers of
termtest (src/termtest.c), via a shallow embedding.

Conventions of the embedding:
- A C string (char pointer to NUL-terminated data) is a `List Nat` of its
  bytes before the terminating NUL; no element is 0.  Reading `s[i]` is
  `cGet s i`, which yields 0 (the NUL terminator) past the end, matching
  reads up to and including the terminator.
- A possibly-NULL `char *` is an `Option (List Nat)`; `none` is NULL.
- Dereferencing NULL is undefined behavior; it is modeled by the `crash`
  constructor of `CResult`.
- Machine integers are `Nat`/`Int` with explicit bounds: `long` arithmetic
  uses 2 ^ 63 bounds, `unsigned` conversion wraps mod 2 ^ 32, and the
  `ssize_t`-to-`size_t` conversion in `comm`'s write check wraps mod 2 ^ 64.
-/

/-- C locale `isspace`: space (32) and the control characters 9 to 13. -/
def isspace (c : Nat) : Bool := c = 32 || (9 ≤ c && c ≤ 13)

/-- C locale `isdigit`: ASCII digits 48 to 57. -/
def isdigit (c : Nat) : Bool := 48 ≤ c && c ≤ 57

/-- Read byte `i` of a C string; past the end this reads the NUL terminator. -/
def cGet (s : List Nat) (i : Nat) : Nat := s.getD i 0

/-- Value of a most-significant-first list of ASCII digit codes, as read by
strtol/strtoul digit accumulation. -/
def strtolDigits (ds : List Nat) : Nat :=
  ds.foldl (fun a c => a * 10 + (c - 48)) 0

/-- Fuelled most-significant-first decimal rendering of a natural number as
ASCII digit codes (the byte form produced by printf "%d" for the mode
numbers written into requests and echoed back in replies). -/
def natStrGo : Nat → Nat → List Nat
  | 0, _ => []
  | fuel + 1, n => if n < 10 then [48 + n] else natStrGo fuel (n / 10) ++ [48 + n % 10]

/-- Decimal ASCII rendering of a natural number (`"0"` for 0). -/
def natStr (n : Nat) : List Nat := natStrGo (n + 1) n

/-- Optional single sign, shared by the strtol and scanf %u subject
sequences: consumes one leading '+' (43) or '-' (45). -/
def scanSign (s : List Nat) : Bool × List Nat :=
  if cGet s 0 = 43 then (false, s.drop 1)
  else if cGet s 0 = 45 then (true, s.drop 1)
  else (false, s)

/-- Digit phase of `strtol` base 10 on a 64-bit long: consumes the digit
run; with no digits the end pointer is the original string `orig` and the
value is 0; on overflow the value clamps to LONG_MAX / LONG_MIN and the
ERANGE flag is set.  Returns (value, end pointer suffix, ERANGE). -/
def strtolTail : Bool × List Nat → List Nat → Int × List Nat × Bool
  | (neg, s), orig =>
    let ds := s.takeWhile (fun c => isdigit c = true)
    if ds = [] then (0, orig, false)
    else
      let v := strtolDigits ds
      let rem := s.drop ds.length
      if neg then
        if 2 ^ 63 < v then (-(2 ^ 63 : Int), rem, true) else (-(v : Int), rem, false)
      else
        if 2 ^ 63 - 1 < v then ((2 ^ 63 - 1 : Int), rem, true) else ((v : Int), rem, false)

/-- `strtol(s, &end, 10)` on a 64-bit long, with `errno` cleared first, as
in parse_decrpm: skip whitespace, optional sign, digit run. -/
def strtol (s : List Nat) : Int × List Nat × Bool :=
  strtolTail (scanSign (s.dropWhile (fun c => isspace c = true))) s

/-- Tail of parse_decrpm after the `ESC [ ?` prefix: the strtol result is
`(mode, end, errno)`; the response is invalid (-1) unless errno is clear,
mode is non-negative, `*end` is ';', `end[1]` is a digit, `end[2..3]` are
`$y`, and `end[4]` is the terminating NUL.  The returned status is the
digit value `end[1] - '0'` (termtest.c lines 109-112). -/
def parse_decrpmTail : Int × List Nat × Bool → Int
  | (mode, e, err) =>
    if err = false ∧ 0 ≤ mode ∧ cGet e 0 = 59 then
      if isdigit (cGet e 1) = true ∧ cGet e 2 = 36 ∧ cGet e 3 = 121 ∧ cGet e 4 = 0 then
        (cGet e 1 : Int) - 48
      else -1
    else -1

/-- parse_decrpm (termtest.c lines 106-113): returns the status digit of a
DECRPM response `ESC [ ? <mode> ; <digit> $ y`, or -1 if invalid. -/
def parse_decrpm (resp : List Nat) : Int :=
  if cGet resp 0 = 27 ∧ cGet resp 1 = 91 ∧ cGet resp 2 = 63 then
    parse_decrpmTail (strtol (resp.drop 3))
  else -1

/-- The exact wire bytes `ESC [ ? <digits of mode> ; <status digit> $ y`. -/
def mkDecrpm (mode status : Nat) : List Nat :=
  27 :: 91 :: 63 :: (natStr mode ++ 59 :: (48 + status) :: 36 :: 121 :: [])

/-- scanf `%u` conversion on a 32-bit unsigned int: skip whitespace, read
the strtoul base-10 subject sequence (optional sign, at least one digit),
value taken mod 2 ^ 32 with a leading '-' negating modulo 2 ^ 32.  `none`
is a matching failure, which terminates the sscanf call. -/
def scanU (s : List Nat) : Option (Nat × List Nat) :=
  let s0 := s.dropWhile (fun c => isspace c = true)
  let p := scanSign s0
  let ds := p.2.takeWhile (fun c => isdigit c = true)
  if ds = [] then none
  else
    let v := strtolDigits ds % 2 ^ 32
    some (if p.1 then (2 ^ 32 - v) % 2 ^ 32 else v, p.2.drop ds.length)

/-- Literal ';' directive of the sscanf formats: matches exactly one
semicolon (59). -/
def scanSemi (s : List Nat) : Option (List Nat) :=
  if cGet s 0 = 59 then some (s.drop 1) else none

/-- `%c` directive: reads the next byte; fails only at the end of input. -/
def scanC : List Nat → Option (Nat × List Nat)
  | [] => none
  | c :: t => some (c, t)

/-- The shared `%u ; %u ; %u %c` tail of the SGR-like and urxvt-like
sscanf formats; bytes remaining after the final `%c` are left unread
(sscanf succeeds with 4 conversions regardless of what follows). -/
def scanNums (s : List Nat) : Option (Nat × Nat × Nat × Nat) :=
  match scanU s with
  | none => none
  | some (b, s1) =>
    match scanSemi s1 with
    | none => none
    | some s2 =>
      match scanU s2 with
      | none => none
      | some (x, s3) =>
        match scanSemi s3 with
        | none => none
        | some s4 =>
          match scanU s4 with
          | none => none
          | some (y, s5) =>
            match scanC s5 with
            | none => none
            | some (m, _) => some (b, x, y, m)

/-- `sscanf(resp, "\x1b[M%c%c%c", &bc, &xc, &yc) == 3`: the literal prefix
`ESC [ M` followed by three bytes (so the string needs length at least 6). -/
def scanLegacy (resp : List Nat) : Option (Nat × Nat × Nat) :=
  if cGet resp 0 = 27 ∧ cGet resp 1 = 91 ∧ cGet resp 2 = 77 ∧ 6 ≤ resp.length then
    some (cGet resp 3, cGet resp 4, cGet resp 5)
  else none

/-- `sscanf(resp, "\x1b[<%u;%u;%u%c", ...) == 4`: literal `ESC [ <` then
the numeric tail. -/
def scanSgr (resp : List Nat) : Option (Nat × Nat × Nat × Nat) :=
  if cGet resp 0 = 27 ∧ cGet resp 1 = 91 ∧ cGet resp 2 = 60 then
    scanNums (resp.drop 3)
  else none

/-- `sscanf(resp, "\x1b[%u;%u;%u%c", ...) == 4`: literal `ESC [` then the
numeric tail. -/
def scanUrxvt (resp : List Nat) : Option (Nat × Nat × Nat × Nat) :=
  if cGet resp 0 = 27 ∧ cGet resp 1 = 91 then
    scanNums (resp.drop 2)
  else none

/-- Outcome printed by test_mouse for one captured mouse report. -/
inductive MouseResult where
  /-- The "1005? ..." line: legacy prefix matched but the capture is longer
  than 6 bytes, so it is reported as the UTF-8 legacy variant. -/
  | utf8Legacy (raw : List Nat)
  /-- The "1000/1005 (b @ x,y)" line, already offset by -32. -/
  | legacy (b x y : Nat)
  /-- The "1016 (...)" or "1006/1016 (...)" line: `pixel` is true for the
  bare "1016" classification, `m` is the press/release byte 77 ('M', press)
  or 109 ('m', release). -/
  | sgr (pixel : Bool) (b m x y : Nat)
  /-- The "1015 (b @ x,y)" line, b already offset by -32 with unsigned wrap. -/
  | urxvt (b x y : Nat)
  /-- The "Failed to parse." line. -/
  | failed
deriving DecidableEq

/-- Third branch of test_mouse (termtest.c lines 150-155): the urxvt-like
grammar, requiring the trailing character to be 'M' (77); the reported
button is `b - 32` computed on a 32-bit unsigned int. -/
def test_mouseUrxvt (resp : List Nat) : MouseResult :=
  match scanUrxvt resp with
  | some (b, x, y, m) =>
    if m = 77 then MouseResult.urxvt ((b + 2 ^ 32 - 32) % 2 ^ 32) x y
    else MouseResult.failed
  | none => MouseResult.failed

/-- Second branch of test_mouse (termtest.c lines 145-149): the SGR-like
grammar with trailing 'm' (109) or 'M' (77); classified as the pixel
variant (bare "1016") exactly when x exceeds the window column count or y
exceeds the row count. -/
def test_mouseSgr (cols rows : Nat) (resp : List Nat) : MouseResult :=
  match scanSgr resp with
  | some (b, x, y, m) =>
    if m = 109 ∨ m = 77 then
      MouseResult.sgr (decide (cols < x) || decide (rows < y)) b m x y
    else test_mouseUrxvt resp
  | none => test_mouseUrxvt resp

/-- The reply-classification part of test_mouse (termtest.c lines 132-155):
the legacy X10 grammar is tried first (requiring b, x, y at or above 32),
with captures longer than 6 bytes reported as the UTF-8 variant; then the
SGR-like grammar, then the urxvt-like grammar. -/
def test_mouseParse (cols rows : Nat) (resp : List Nat) : MouseResult :=
  match scanLegacy resp with
  | some (bc, xc, yc) =>
    if 32 ≤ bc ∧ 32 ≤ xc ∧ 32 ≤ yc then
      if 6 < resp.length then MouseResult.utf8Legacy resp
      else MouseResult.legacy (bc - 32) (xc - 32) (yc - 32)
    else test_mouseSgr cols rows resp
  | none => test_mouseSgr cols rows resp

/-- Result of one `read` call inside comm's poll loop. -/
inductive ReadRes where
  /-- read returned 0 (end of file) or a negative error. -/
  | rerr
  /-- read returned these bytes (`l.length` positive in a real trace;
  comm truncates them to the space left in the buffer, as `read` is
  called with count `sizeof buf - buf_len - 1`). -/
  | bytes (l : List Nat)
deriving DecidableEq

/-- Outcome of one iteration of comm's `poll(&pfd, 1, lag)` call. -/
inductive PollStep where
  /-- poll returned 0: the idle timeout elapsed, the loop ends. -/
  | timeout
  /-- poll returned a negative error. -/
  | perr
  /-- poll reported the descriptor readable; `read` follows. -/
  | ready (r : ReadRes)
deriving DecidableEq

/-- `strdup(buf)` on the zero-initialized capture array: the C string is
the accumulated bytes up to (not including) the first NUL. -/
def cstrOf (l : List Nat) : List Nat := l.takeWhile (fun b => decide (b ≠ 0))

/-- The idle-framing loop of comm (termtest.c lines 82-89) driven by a
schedule of poll outcomes, starting from accumulated bytes `buf` inside the
`char buf[1000]` array.  An exhausted schedule stands for an eventual
timeout.  Each read is bounded by the remaining space
`sizeof buf - buf_len - 1`; when that count is 0, `read` returns 0 and the
`len <= 0` check makes comm return NULL (`none`).  Poll or read errors also
return NULL regardless of what was accumulated.  On timeout the result is
`strdup(buf)`. -/
def commLoop : List PollStep → List Nat → Option (List Nat)
  | [], buf => some (cstrOf buf)
  | PollStep.timeout :: _, buf => some (cstrOf buf)
  | PollStep.perr :: _, _ => none
  | PollStep.ready ReadRes.rerr :: _, _ => none
  | PollStep.ready (ReadRes.bytes l) :: sched, buf =>
    if 1000 - buf.length - 1 = 0 then none
    else if l = [] then none
    else commLoop sched (buf ++ l.take (1000 - buf.length - 1))

/-- The C conversion of the signed `ssize_t` return of `write` to
`size_t`, applied by the usual arithmetic conversions in the comparison
`len < strlen(req)`: negative values wrap modulo 2 ^ 64. -/
def toSizeT (i : Int) : Nat := (i % 2 ^ 64).toNat

/-- The transaction engine: comm (termtest.c lines 74-90).  The name comm collides with a Mathlib root declaration, hence the spec name transact.  Writes the request (the `write` call
returned `written`, either -1 or a byte count at most `reqLen`), returns
NULL when the converted comparison `len < strlen(req)` holds, and otherwise
runs the idle-framing loop on an empty buffer.  The `wait_first` poll has
no observable effect on the captured bytes and is omitted. -/
def transact (reqLen : Nat) (written : Int) (sched : List PollStep) : Option (List Nat) :=
  if toSizeT written < reqLen then none
  else commLoop sched []

/-- The termios fields touched by tty_cbreak; `rest` stands for every
other attribute, which cbreak mode copies unchanged. -/
structure Termios where
  echo : Bool
  icanon : Bool
  vmin : Nat
  vtime : Nat
  rest : Nat
deriving DecidableEq

/-- The attribute modification of tty_cbreak (termtest.c lines 57-60):
clear ECHO and ICANON, set VMIN to 1 and VTIME to 0, keep the rest. -/
def cbreakAttrs (t : Termios) : Termios :=
  { t with echo := false, icanon := false, vmin := 1, vtime := 0 }

/-- The terminal device state together with the process-global
`saved_termios`. -/
structure Tty where
  attrs : Termios
  saved : Termios
deriving DecidableEq

/-- tty_cbreak (termtest.c lines 53-70) on a device whose tcgetattr and
tcsetattr calls succeed: snapshot the attributes into `saved_termios`, set
the cbreak attributes, re-read them, and verify ECHO and ICANON are clear
with VMIN 1 and VTIME 0; on verification failure restore the snapshot and
report failure. -/
def tty_cbreak (w : Tty) : Tty × Bool :=
  let saved := w.attrs
  let w1 : Tty := { attrs := cbreakAttrs saved, saved := saved }
  if w1.attrs.echo || w1.attrs.icanon
      || decide (w1.attrs.vmin ≠ 1) || decide (w1.attrs.vtime ≠ 0) then
    ({ w1 with attrs := saved }, false)
  else (w1, true)

/-- tty_atexit (termtest.c line 50): reinstate the saved attributes. -/
def tty_atexit (w : Tty) : Tty := { w with attrs := w.saved }

/-- The startup and exit paths of main (termtest.c lines 171-183 and 417)
as far as the terminal attributes are concerned: tty_cbreak failure aborts;
setupterm failure aborts with no restoration (no atexit or signal handler
is ever registered, and tty_atexit is only called at the end of main); on
the normal path tty_atexit runs once before returning.  The Bool is true
exactly when main completes normally. -/
def mainRun (init : Termios) (setuptermOk : Bool) : Tty × Bool :=
  let r := tty_cbreak { attrs := init, saved := init }
  if r.2 = false then (r.1, false)
  else if setuptermOk = false then (r.1, false)
  else (tty_atexit r.1, true)

/-- Result of running a piece of C code that may exhibit undefined
behavior: either a value or a crash (here: a null-pointer dereference). -/
inductive CResult (α : Type) where
  | ok (val : α)
  | crash
deriving DecidableEq

/-- The call `parse_decrpm(comm(...))` made by deccheck (termtest.c lines
117-120) and by main (line 200): comm may return NULL, and the very first
access `resp[0]` in parse_decrpm then dereferences a null pointer, which
is undefined behavior (in practice a crash), modeled by `crash`. -/
def parse_decrpm_of_comm : Option (List Nat) → CResult Int
  | none => CResult.crash
  | some resp => CResult.ok (parse_decrpm resp)

/-- test_mouse's use of comm's result (termtest.c lines 130-134): `resp`
is passed unchecked to sscanf, which dereferences it; a NULL response from
comm again crashes. -/
def test_mouse_of_comm (cols rows : Nat) : Option (List Nat) → CResult MouseResult
  | none => CResult.crash
  | some resp => CResult.ok (test_mouseParse cols rows resp)

lemma natStrGo_digits : ∀ fuel n, n < fuel → ∀ c ∈ natStrGo fuel n, 48 ≤ c ∧ c ≤ 57 := by
  intro fuel
  induction fuel with
  | zero => intro n h; omega
  | succ f ih =>
    intro n h c hc
    by_cases h10 : n < 10
    · simp [natStrGo, h10] at hc
      omega
    · simp only [natStrGo, if_neg h10, List.mem_append, List.mem_singleton] at hc
      rcases hc with hc | hc
      · exact ih (n / 10) (by omega) c hc
      · have : n % 10 < 10 := Nat.mod_lt _ (by omega)
        omega

lemma natStrGo_ne_nil : ∀ fuel n, n < fuel → natStrGo fuel n ≠ [] := by
  intro fuel n h
  cases fuel with
  | zero => omega
  | succ f =>
    by_cases h10 : n < 10
    · simp [natStrGo, h10]
    · simp [natStrGo, h10]

lemma natStrGo_val : ∀ fuel n, n < fuel → strtolDigits (natStrGo fuel n) = n := by
  intro fuel
  induction fuel with
  | zero => intro n h; omega
  | succ f ih =>
    intro n h
    by_cases h10 : n < 10
    · simp [natStrGo, h10, strtolDigits]
    · have hdiv : n / 10 < f := by
        have h1 : n / 10 < n := Nat.div_lt_self (by omega) (by omega)
        omega
      simp only [natStrGo, if_neg h10, strtolDigits, List.foldl_append]
      have := ih (n / 10) hdiv
      simp only [strtolDigits] at this
      rw [this]
      simp only [List.foldl_cons, List.foldl_nil]
      omega

lemma natStr_digits : ∀ c ∈ natStr n, 48 ≤ c ∧ c ≤ 57 :=
  natStrGo_digits (n + 1) n (Nat.lt_succ_self n)

lemma natStr_ne_nil : natStr n ≠ [] :=
  natStrGo_ne_nil (n + 1) n (Nat.lt_succ_self n)

lemma natStr_val : strtolDigits (natStr n) = n :=
  natStrGo_val (n + 1) n (Nat.lt_succ_self n)

lemma takeWhile_append_all {p : Nat → Bool} : ∀ (L M : List Nat),
    (∀ c ∈ L, p c = true) → p (M.headD 0) = false → (L ++ M).takeWhile p = L := by
  intro L M hL hM
  induction L with
  | nil =>
    cases M with
    | nil => rfl
    | cons m t => simpa [List.takeWhile_cons] using hM
  | cons a L ih =>
    have ha : p a = true := hL a (List.mem_cons_self a L)
    simp only [List.cons_append, List.takeWhile_cons, ha, if_true]
    rw [ih (fun c hc => hL c (List.mem_cons_of_mem a hc))]

/-- Behavior of scanU on a canonical decimal rendering followed by a
non-digit: it consumes exactly the digits and returns the value. -/
lemma scanU_natStr (n : Nat) (rest : List Nat) (hn : n < 2 ^ 32)
    (h : isdigit (rest.headD 0) = false) :
    scanU (natStr n ++ rest) = some (n, rest) := by
  obtain ⟨c, t, hct⟩ := List.exists_cons_of_ne_nil (natStr_ne_nil (n := n))
  have hc : 48 ≤ c ∧ c ≤ 57 := by
    apply natStr_digits
    rw [hct]; exact List.mem_cons_self c t
  have hdig : ∀ d ∈ natStr n, isdigit d = true := by
    intro d hd
    have := natStr_digits d hd
    simp [isdigit]
    omega
  have hsp : isspace c = false := by simp [isspace]; omega
  have hdw : (natStr n ++ rest).dropWhile (fun c => isspace c = true) = natStr n ++ rest := by
    rw [hct, List.cons_append, List.dropWhile_cons]
    simp [hsp]
  have hsgn : scanSign (natStr n ++ rest) = (false, natStr n ++ rest) := by
    unfold scanSign
    rw [hct]
    simp only [List.cons_append, cGet, List.getD_cons_zero]
    rw [if_neg (by omega), if_neg (by omega)]
  have htw : ((natStr n ++ rest).takeWhile fun d => isdigit d = true) = natStr n := by
    apply takeWhile_append_all _ _ (by simpa using hdig)
    simpa using h
  simp only [scanU, hdw, hsgn, htw]
  rw [if_neg (natStr_ne_nil (n := n))]
  rw [natStr_val, List.drop_left]
  have hmod : n % 2 ^ 32 = n := Nat.mod_eq_of_lt hn
  simp only [hmod]
  simp

/-- Behavior of strtol on a canonical decimal rendering followed by a
non-digit, without overflow. -/
lemma strtol_natStr (n : Nat) (rest : List Nat) (hn : n < 2 ^ 63)
    (h : isdigit (rest.headD 0) = false) :
    strtol (natStr n ++ rest) = ((n : Int), rest, false) := by
  obtain ⟨c, t, hct⟩ := List.exists_cons_of_ne_nil (natStr_ne_nil (n := n))
  have hc : 48 ≤ c ∧ c ≤ 57 := by
    apply natStr_digits
    rw [hct]; exact List.mem_cons_self c t
  have hdig : ∀ d ∈ natStr n, isdigit d = true := by
    intro d hd
    have := natStr_digits d hd
    simp [isdigit]
    omega
  have hsp : isspace c = false := by simp [isspace]; omega
  have hdw : (natStr n ++ rest).dropWhile (fun c => isspace c = true) = natStr n ++ rest := by
    rw [hct, List.cons_append, List.dropWhile_cons]
    simp [hsp]
  have hsgn : scanSign (natStr n ++ rest) = (false, natStr n ++ rest) := by
    unfold scanSign
    rw [hct]
    simp only [List.cons_append, cGet, List.getD_cons_zero]
    rw [if_neg (by omega), if_neg (by omega)]
  have htw : ((natStr n ++ rest).takeWhile fun d => isdigit d = true) = natStr n := by
    apply takeWhile_append_all _ _ (by simpa using hdig)
    simpa using h
  simp only [strtol, hdw, hsgn, strtolTail, htw]
  rw [if_neg (natStr_ne_nil (n := n))]
  simp only [natStr_val, List.drop_left]
  rw [if_neg (by simp), if_neg (by omega)]

/-- The numeric sscanf tail on canonical decimal fields: consumes
`<b>;<x>;<y><m>` and ignores everything after the `%c` byte `m`. -/
lemma scanNums_spec (b x y m : Nat) (rest : List Nat) (hb : b < 2 ^ 32) (hx : x < 2 ^ 32)
    (hy : y < 2 ^ 32) (hm : isdigit m = false) :
    scanNums (natStr b ++ 59 :: (natStr x ++ 59 :: (natStr y ++ m :: rest)))
      = some (b, x, y, m) := by
  have h1 := scanU_natStr b (59 :: (natStr x ++ 59 :: (natStr y ++ m :: rest))) hb
    (by simp [isdigit])
  have h2 := scanU_natStr x (59 :: (natStr y ++ m :: rest)) hx (by simp [isdigit])
  have h3 := scanU_natStr y (m :: rest) hy (by simpa using hm)
  simp [scanNums, h1, h2, h3, scanSemi, scanC, cGet]

/-- test_mouse classification of a canonical SGR-like report, with
arbitrary bytes allowed after the terminating m byte. -/
lemma test_mouseParse_sgr_eq (cols rows b x y m : Nat) (extra : List Nat)
    (hb : b < 2 ^ 32) (hx : x < 2 ^ 32) (hy : y < 2 ^ 32) (hm : m = 77 ∨ m = 109) :
    test_mouseParse cols rows
        (27 :: 91 :: 60 :: (natStr b ++ 59 :: (natStr x ++ 59 :: (natStr y ++ m :: extra))))
      = MouseResult.sgr (decide (cols < x) || decide (rows < y)) b m x y := by
  have hmd : isdigit m = false := by
    rcases hm with h | h <;> simp [h, isdigit]
  have hsn := scanNums_spec b x y m extra hb hx hy hmd
  have hleg : scanLegacy
      (27 :: 91 :: 60 :: (natStr b ++ 59 :: (natStr x ++ 59 :: (natStr y ++ m :: extra))))
      = none := by
    simp [scanLegacy, cGet]
  simp only [test_mouseParse, hleg]
  simp only [test_mouseSgr, scanSgr, cGet, List.getD_cons_zero, List.getD_cons_succ]
  rw [if_pos (by trivial)]
  simp only [List.drop_succ_cons, List.drop_zero, hsn]
  rw [if_pos (by tauto)]

/-- test_mouse classification of a canonical urxvt-like report, with
arbitrary bytes allowed after the terminating 'M'. -/
lemma test_mouseParse_urxvt_eq (cols rows b x y : Nat) (extra : List Nat)
    (hb : b < 2 ^ 32) (hx : x < 2 ^ 32) (hy : y < 2 ^ 32) :
    test_mouseParse cols rows
        (27 :: 91 :: (natStr b ++ 59 :: (natStr x ++ 59 :: (natStr y ++ 77 :: extra))))
      = MouseResult.urxvt ((b + 2 ^ 32 - 32) % 2 ^ 32) x y := by
  obtain ⟨c, t, hct⟩ := List.exists_cons_of_ne_nil (natStr_ne_nil (n := b))
  have hc : 48 ≤ c ∧ c ≤ 57 := by
    apply natStr_digits
    rw [hct]; exact List.mem_cons_self c t
  have hc77 : c ≠ 77 := by omega
  have hc60 : c ≠ 60 := by omega
  have hsn := scanNums_spec b x y 77 extra hb hx hy (by simp [isdigit])
  have hleg : scanLegacy
      (27 :: 91 :: (natStr b ++ 59 :: (natStr x ++ 59 :: (natStr y ++ 77 :: extra))))
      = none := by
    rw [hct]
    simp [scanLegacy, cGet, hc77]
  have hsgr : scanSgr
      (27 :: 91 :: (natStr b ++ 59 :: (natStr x ++ 59 :: (natStr y ++ 77 :: extra))))
      = none := by
    rw [hct]
    simp [scanSgr, cGet, hc60]
  simp only [test_mouseParse, hleg, test_mouseSgr, hsgr, test_mouseUrxvt, scanUrxvt,
    cGet, List.getD_cons_zero, List.getD_cons_succ]
  rw [if_pos (by trivial)]
  simp only [List.drop_succ_cons, List.drop_zero, hsn]
  simp

lemma takeWhile_length_le (p : Nat → Bool) (l : List Nat) :
    (l.takeWhile p).length ≤ l.length := by
  induction l with
  | nil => simp
  | cons a t ih =>
    rw [List.takeWhile_cons]
    by_cases h : p a = true
    · rw [if_pos h]
      simpa using ih
    · rw [if_neg h]
      simp

lemma mem_takeWhile {p : Nat → Bool} (l : List Nat) (a : Nat)
    (h : a ∈ l.takeWhile p) : p a = true := by
  induction l with
  | nil => simp [List.takeWhile] at h
  | cons b t ih =>
    rw [List.takeWhile_cons] at h
    by_cases hb : p b = true
    · rw [if_pos hb] at h
      rcases List.mem_cons.mp h with rfl | hmem
      · exact hb
      · exact ih hmem
    · rw [if_neg hb] at h
      simp at h

/-- Every successful commLoop outcome is the strdup of an accumulated
buffer that never exceeded 999 bytes. -/
lemma commLoop_bound : ∀ (sched : List PollStep) (buf : List Nat), buf.length ≤ 999 →
    ∀ res, commLoop sched buf = some res → ∃ raw, raw.length ≤ 999 ∧ res = cstrOf raw := by
  intro sched
  induction sched with
  | nil =>
    intro buf h res he
    refine ⟨buf, h, ?_⟩
    simpa [commLoop] using he.symm
  | cons step rest ih =>
    intro buf h res he
    cases step with
    | timeout =>
      refine ⟨buf, h, ?_⟩
      simpa [commLoop] using he.symm
    | perr => simp [commLoop] at he
    | ready r =>
      cases r with
      | rerr => simp [commLoop] at he
      | bytes l =>
        by_cases h0 : 1000 - buf.length - 1 = 0
        · simp [commLoop, h0] at he
        · by_cases hl : l = []
          · simp [commLoop, h0, hl] at he
          · simp only [commLoop, if_neg h0, if_neg hl] at he
            apply ih _ _ _ he
            simp only [List.length_append, List.length_take]
            omega

/-- parse_decrpm accepts the exact grammar with any status digit. -/
lemma parse_decrpm_mk (mode status : Nat) (hm : mode < 2 ^ 63) (hs : status < 10) :
    parse_decrpm (mkDecrpm mode status) = status := by
  have hst := strtol_natStr mode (59 :: (48 + status) :: 36 :: 121 :: []) hm (by simp [isdigit])
  simp only [mkDecrpm, parse_decrpm, cGet, List.getD_cons_zero, List.getD_cons_succ]
  rw [if_pos (by trivial)]
  simp only [List.drop_succ_cons, List.drop_zero, hst, parse_decrpmTail]
  rw [if_pos (by simp [cGet])]
  rw [if_pos (by simp [cGet, isdigit]; omega)]
  simp [cGet]

/-- parse_decrpm rejects any non-NUL byte after the final 'y'. -/
lemma parse_decrpm_mk_append (mode status c : Nat) (hm : mode < 2 ^ 63) (_hs : status < 10)
    (hc : c ≠ 0) :
    parse_decrpm (mkDecrpm mode status ++ [c]) = -1 := by
  have hst := strtol_natStr mode (59 :: (48 + status) :: 36 :: 121 :: c :: []) hm
    (by simp [isdigit])
  have hre : mkDecrpm mode status ++ [c]
      = 27 :: 91 :: 63 :: (natStr mode ++ 59 :: (48 + status) :: 36 :: 121 :: c :: []) := by
    simp [mkDecrpm]
  rw [hre]
  simp only [parse_decrpm, cGet, List.getD_cons_zero, List.getD_cons_succ]
  rw [if_pos (by trivial)]
  simp only [List.drop_succ_cons, List.drop_zero, hst, parse_decrpmTail]
  rw [if_pos (by simp [cGet])]
  rw [if_neg (by simp [cGet, hc])]

/-- parse_decrpm rejects a non-digit in the status position. -/
lemma parse_decrpm_nondigit (mode d : Nat) (hm : mode < 2 ^ 63) (hd : isdigit d = false) :
    parse_decrpm (27 :: 91 :: 63 :: (natStr mode ++ 59 :: d :: 36 :: 121 :: [])) = -1 := by
  have hst := strtol_natStr mode (59 :: d :: 36 :: 121 :: []) hm (by simp [isdigit])
  simp only [parse_decrpm, cGet, List.getD_cons_zero, List.getD_cons_succ]
  rw [if_pos (by trivial)]
  simp only [List.drop_succ_cons, List.drop_zero, hst, parse_decrpmTail]
  rw [if_pos (by simp [cGet])]
  rw [if_neg (by simp [cGet, hd])]

/-- C1: when the transaction engine fails, comm returns NULL, and every
caller (deccheck's parse_decrpm, test_mouse's sscanf) dereferences that
NULL response immediately: the absent Response is not reported as
"unparseable/unsupported" but is undefined behavior (a crash).  An empty
(non-absent) Response, in contrast, is parsed gracefully as invalid /
failed, as the claim states. -/
theorem absent_response_crashes_not_graceful :
    parse_decrpm_of_comm none = CResult.crash ∧
    test_mouse_of_comm 80 24 none = CResult.crash ∧
    parse_decrpm_of_comm (some []) = CResult.ok (-1) ∧
    test_mouse_of_comm 80 24 (some []) = CResult.ok MouseResult.failed :=
  ⟨rfl, rfl, rfl, rfl⟩

/-- C2 counterexample: the status digit 5, outside {0..4}, does not yield
"invalid": parse_decrpm on the bytes of `ESC [ ? 1 ; 5 $ y` returns 5,
because the code only checks isdigit on the status position. -/
theorem decrpm_status_five_accepted :
    parse_decrpm [27, 91, 63, 49, 59, 53, 36, 121] = 5 ∧ (5 : Int) ≠ -1 :=
  ⟨rfl, by decide⟩

/-- C2 (amended): for every mode below 2 ^ 63 and every status digit in
{0..9}, parsing the exact bytes `ESC [ ? <mode> ; <status> $ y` succeeds
and returns the status (the mode field is validated via strtol but not part
of the return value); a non-NUL byte appended after 'y' yields invalid
(-1), as does a non-digit byte in the status position.  Status digits 5-9
are accepted, not rejected. -/
theorem decrpm_grammar_amended (mode status c d : Nat) (hm : mode < 2 ^ 63)
    (hs : status < 10) (hc : c ≠ 0) (hd : isdigit d = false) :
    parse_decrpm (mkDecrpm mode status) = status ∧
    parse_decrpm (mkDecrpm mode status ++ [c]) = -1 ∧
    parse_decrpm (27 :: 91 :: 63 :: (natStr mode ++ 59 :: d :: 36 :: 121 :: [])) = -1 :=
  ⟨parse_decrpm_mk mode status hm hs, parse_decrpm_mk_append mode status c hm hs hc,
   parse_decrpm_nondigit mode d hm hd⟩

/-- C2 witness: the amended grammar theorem at mode 1000, status 2, an
appended bell byte 7, and 'A' (65) in the status position. -/
theorem decrpm_grammar_amended_witness :
    parse_decrpm (mkDecrpm 1000 2) = 2 ∧
    parse_decrpm (mkDecrpm 1000 2 ++ [7]) = -1 ∧
    parse_decrpm (27 :: 91 :: 63 :: (natStr 1000 ++ 59 :: 65 :: 36 :: 121 :: [])) = -1 :=
  decrpm_grammar_amended 1000 2 7 65 (by decide) (by decide) (by decide) (by decide)

set_option maxRecDepth 100000 in
/-- C3 counterexample: a reply of 1000 bytes (999 fill the buffer, one
stays pending, so poll reports readable again) makes the engine return the
absent Response (NULL), not the truncated first 999 bytes: once the buffer
is full, `read(fd, buf + 999, 0)` returns 0 and the `len <= 0` check
returns NULL. -/
theorem transact_capacity_overflow_absent :
    transact 1 1 [PollStep.ready (ReadRes.bytes (List.replicate 999 65)),
      PollStep.ready (ReadRes.bytes [66])] = none ∧
    (none : Option (List Nat)) ≠ some (List.replicate 999 65) :=
  ⟨rfl, by simp⟩

/-- C3 (amended): the capture is indeed bounded by 999 bytes, and any
Response actually returned holds at most 999 bytes; but when the buffer is
already full and poll reports more pending input, transact returns the
absent Response instead of the truncated one. -/
theorem transact_capacity_amended (sched sched2 : List PollStep) (l buf res : List Nat)
    (h : commLoop sched [] = some res) (hb : buf.length = 999) :
    res.length ≤ 999 ∧ commLoop (PollStep.ready (ReadRes.bytes l) :: sched2) buf = none := by
  constructor
  · obtain ⟨raw, hr, he⟩ := commLoop_bound sched [] (by simp) res h
    calc res.length = (cstrOf raw).length := by rw [he]
      _ ≤ raw.length := takeWhile_length_le _ raw
      _ ≤ 999 := hr
  · simp [commLoop, hb]

/-- C3 witness: the amended theorem at an immediately-idle schedule and a
full 999-byte buffer. -/
theorem transact_capacity_amended_witness :
    ([] : List Nat).length ≤ 999 ∧
    commLoop [PollStep.ready (ReadRes.bytes [1])] (List.replicate 999 7) = none :=
  transact_capacity_amended [PollStep.timeout] [] [1] (List.replicate 999 7) [] rfl
    (by rw [List.length_replicate])

/-- C4 counterexample: a poll error arriving after one byte (65) was
already captured still yields the absent Response, not the best-effort
`some [65]` the claim promises. -/
theorem transact_error_after_bytes_absent :
    transact 1 1 [PollStep.ready (ReadRes.bytes [65]), PollStep.perr] = none ∧
    (none : Option (List Nat)) ≠ some [65] :=
  ⟨rfl, by simp⟩

/-- C4 (amended): any wait or read error inside the idle-framing loop
yields the absent Response regardless of how many bytes were already
accumulated; captured bytes are only returned when the loop ends by the
idle timeout. -/
theorem transact_error_always_absent : ∀ (buf : List Nat) (sched : List PollStep),
    commLoop (PollStep.perr :: sched) buf = none ∧
    commLoop (PollStep.ready ReadRes.rerr :: sched) buf = none :=
  fun _ _ => ⟨rfl, rfl⟩

/-- C5: a short write (3 of 5 bytes) is caught and yields the absent
Response; but an outright write failure (-1) is not: the comparison
`len < strlen(req)` converts the ssize_t -1 to SIZE_MAX, the check passes,
and the engine proceeds to poll and returns a captured (here empty)
Response instead of the absent one that comm's own documentation promises. -/
theorem transact_write_error_not_absent :
    transact 5 3 [PollStep.timeout] = none ∧
    transact 5 (-1) [PollStep.timeout] = some [] ∧
    transact 5 (-1) [PollStep.timeout] ≠ none := by
  refine ⟨rfl, rfl, ?_⟩
  have h2 : transact 5 (-1) [PollStep.timeout] = some [] := rfl
  rw [h2]
  simp

/-- C6 counterexample: starting from attributes with echo and canonical
mode enabled, the run in which setupterm fails aborts after tty_cbreak
succeeded, and the process ends with the cbreak attributes still active
(no atexit or signal handler is registered), contradicting "restore runs
on every exit path". -/
theorem restore_skipped_on_setupterm_abort :
    (mainRun ⟨true, true, 0, 0, 5⟩ false).2 = false ∧
    (mainRun ⟨true, true, 0, 0, 5⟩ false).1.attrs ≠ (⟨true, true, 0, 0, 5⟩ : Termios) := by
  refine ⟨rfl, by decide⟩

/-- C6 (amended): tty_atexit is idempotent, and on the normal exit path
main restores the pre-enter snapshot exactly; but restoration is only the
last statement of main, so the abort path after a terminfo-setup failure
(and likewise any signal-induced termination) exits with the cbreak
attributes still in force. -/
theorem restore_idempotent_and_normal_exit : ∀ (w : Tty) (init : Termios),
    tty_atexit (tty_atexit w) = tty_atexit w ∧
    (mainRun init true).1.attrs = init ∧
    (mainRun init false).1.attrs = cbreakAttrs init :=
  fun _ _ => ⟨rfl, rfl, rfl⟩

/-- C7: a Response of exactly 6 bytes matching `ESC [ M` with b, x, y all
at least 32 is decoded numerically as (b-32, x-32, y-32); the same prefix
with any non-empty NUL-free continuation is longer than 6 bytes and is
reported as the UTF-8 legacy variant, never decoded numerically. -/
theorem legacy_mouse_exact_six_vs_utf8 (cols rows b x y : Nat) (extra : List Nat)
    (hb : 32 ≤ b) (hx : 32 ≤ x) (hy : 32 ≤ y) (hne : extra ≠ [])
    (_hz : ∀ e ∈ extra, e ≠ 0) :
    test_mouseParse cols rows [27, 91, 77, b, x, y]
      = MouseResult.legacy (b - 32) (x - 32) (y - 32) ∧
    test_mouseParse cols rows (27 :: 91 :: 77 :: b :: x :: y :: extra)
      = MouseResult.utf8Legacy (27 :: 91 :: 77 :: b :: x :: y :: extra) := by
  constructor
  · have hleg : scanLegacy [27, 91, 77, b, x, y] = some (b, x, y) := by
      simp [scanLegacy, cGet]
    simp only [test_mouseParse, hleg]
    rw [if_pos ⟨hb, hx, hy⟩]
    simp
  · have hleg : scanLegacy (27 :: 91 :: 77 :: b :: x :: y :: extra) = some (b, x, y) := by
      simp [scanLegacy, cGet]
    simp only [test_mouseParse, hleg]
    rw [if_pos ⟨hb, hx, hy⟩]
    rw [if_pos (by simp only [List.length_cons]; have := List.length_pos.mpr hne; omega)]

/-- C7 witness: the spec's own example bytes `ESC [ M ! " #` and the same
with one extra byte. -/
theorem legacy_mouse_exact_six_vs_utf8_witness :
    test_mouseParse 80 24 [27, 91, 77, 33, 34, 35] = MouseResult.legacy 1 2 3 ∧
    test_mouseParse 80 24 (27 :: 91 :: 77 :: 33 :: 34 :: 35 :: [36])
      = MouseResult.utf8Legacy (27 :: 91 :: 77 :: 33 :: 34 :: 35 :: [36]) :=
  legacy_mouse_exact_six_vs_utf8 80 24 33 34 35 [36] (by decide) (by decide) (by decide)
    (by decide) (by decide)

/-- C8 counterexample: a complete SGR-like report followed by a stray
byte 'Z' (90) after the terminating 'M' still parses successfully as an
SGR event, refuting "trailing bytes after the expected terminator make the
parse fail" for the SGR-like grammar. -/
theorem sgr_trailing_bytes_accepted :
    test_mouseParse 80 24 [27, 91, 60, 48, 59, 53, 59, 49, 48, 77, 90]
      = MouseResult.sgr false 0 77 5 10 ∧
    test_mouseParse 80 24 [27, 91, 60, 48, 59, 53, 59, 49, 48, 77, 90]
      ≠ MouseResult.failed :=
  ⟨rfl, by decide⟩

/-- C8 (amended): the DECRPM parser does reject any byte following its
terminator 'y', but the sscanf-based SGR-like and urxvt-like matchers stop
reading at the byte matched by the final %c and accept arbitrary trailing
bytes unchanged. -/
theorem trailing_bytes_amended (mode status c cols rows b x y m b2 : Nat)
    (extra extra2 : List Nat) (hm : mode < 2 ^ 63) (hs : status < 10) (hc : c ≠ 0)
    (hb : b < 2 ^ 32) (hx : x < 2 ^ 32) (hy : y < 2 ^ 32) (hmv : m = 77 ∨ m = 109)
    (hb2 : b2 < 2 ^ 32) :
    parse_decrpm (mkDecrpm mode status ++ [c]) = -1 ∧
    test_mouseParse cols rows
        (27 :: 91 :: 60 :: (natStr b ++ 59 :: (natStr x ++ 59 :: (natStr y ++ m :: extra))))
      = MouseResult.sgr (decide (cols < x) || decide (rows < y)) b m x y ∧
    test_mouseParse cols rows
        (27 :: 91 :: (natStr b2 ++ 59 :: (natStr x ++ 59 :: (natStr y ++ 77 :: extra2))))
      = MouseResult.urxvt ((b2 + 2 ^ 32 - 32) % 2 ^ 32) x y :=
  ⟨parse_decrpm_mk_append mode status c hm hs hc,
   test_mouseParse_sgr_eq cols rows b x y m extra hb hx hy hmv,
   test_mouseParse_urxvt_eq cols rows b2 x y extra2 hb2 hx hy⟩

/-- C8 witness: the amended trailing-byte behavior at concrete reports,
each carrying one stray byte 'Z' (90). -/
theorem trailing_bytes_amended_witness :
    parse_decrpm (mkDecrpm 1000 2 ++ [7]) = -1 ∧
    test_mouseParse 80 24
        (27 :: 91 :: 60 :: (natStr 0 ++ 59 :: (natStr 5 ++ 59 :: (natStr 10 ++ 77 :: [90]))))
      = MouseResult.sgr (decide (80 < 5) || decide (24 < 10)) 0 77 5 10 ∧
    test_mouseParse 80 24
        (27 :: 91 :: (natStr 65 ++ 59 :: (natStr 5 ++ 59 :: (natStr 10 ++ 77 :: [90]))))
      = MouseResult.urxvt ((65 + 2 ^ 32 - 32) % 2 ^ 32) 5 10 :=
  trailing_bytes_amended 1000 2 7 80 24 0 5 10 77 65 [90] [90] (by decide) (by decide)
    (by decide) (by decide) (by decide) (by decide) (Or.inl rfl) (by decide)

/-- C9: the SGR-like parser decodes `ESC [ < b ; x ; y` followed by 'M'
(77, press) or 'm' (109, release) as button b at column x, row y, carrying
the press/release byte through; the report is classified as the
pixel-coordinate variant (first argument true) exactly when x exceeds the
window's column count or y exceeds its row count. -/
theorem sgr_mouse_decode_and_classify (cols rows b x y m : Nat)
    (hb : b < 2 ^ 32) (hx : x < 2 ^ 32) (hy : y < 2 ^ 32) (hm : m = 77 ∨ m = 109) :
    test_mouseParse cols rows
        (27 :: 91 :: 60 :: (natStr b ++ 59 :: (natStr x ++ 59 :: (natStr y ++ [m]))))
      = MouseResult.sgr (decide (cols < x) || decide (rows < y)) b m x y :=
  test_mouseParse_sgr_eq cols rows b x y m [] hb hx hy hm

/-- C9 witness: the spec's example `ESC [ < 0 ; 5 ; 10 M` on an 80 by 24
window (character-cell classification, press). -/
theorem sgr_mouse_decode_and_classify_witness :
    test_mouseParse 80 24
        (27 :: 91 :: 60 :: (natStr 0 ++ 59 :: (natStr 5 ++ 59 :: (natStr 10 ++ [77]))))
      = MouseResult.sgr false 0 77 5 10 :=
  sgr_mouse_decode_and_classify 80 24 0 5 10 77 (by decide) (by decide) (by decide)
    (Or.inl rfl)

/-- C10: every non-absent Response is the strdup of a buffer of at most
999 accumulated bytes: it has length at most 999, contains no NUL byte,
and equals the accumulated bytes truncated at the first NUL (cstrOf). -/
theorem transact_response_nul_free_bounded (reqLen : Nat) (written : Int)
    (sched : List PollStep) (res : List Nat)
    (h : transact reqLen written sched = some res) :
    res.length ≤ 999 ∧ (∀ e ∈ res, e ≠ 0) ∧ ∃ raw, raw.length ≤ 999 ∧ res = cstrOf raw := by
  have hloop : commLoop sched [] = some res := by
    by_cases hw : toSizeT written < reqLen
    · simp [transact, hw] at h
    · simpa [transact, hw] using h
  obtain ⟨raw, hr, he⟩ := commLoop_bound sched [] (by simp) res hloop
  refine ⟨?_, ?_, raw, hr, he⟩
  · calc res.length = (cstrOf raw).length := by rw [he]
      _ ≤ raw.length := takeWhile_length_le _ raw
      _ ≤ 999 := hr
  · intro e hee
    have hd : decide (e ≠ 0) = true := by
      apply mem_takeWhile raw e
      rw [he] at hee
      exact hee
    exact of_decide_eq_true hd

/-- C10 witness: a reply containing an embedded NUL (65, 0, 66) produces
the Response [65], within bounds and NUL-free. -/
theorem transact_response_nul_free_bounded_witness :
    ([65] : List Nat).length ≤ 999 ∧ (∀ e ∈ ([65] : List Nat), e ≠ 0) ∧
    ∃ raw, raw.length ≤ 999 ∧ ([65] : List Nat) = cstrOf raw :=
  transact_response_nul_free_bounded 1 1
    [PollStep.ready (ReadRes.bytes [65, 0, 66]), PollStep.timeout] [65] rfl
